import Mathlib

/-!
Verification of the streaming/tool-loop core of `ver0.3/ai.py`.

The development shallowly embeds the three components the claims are about:

* the stream decoder inside `stream_model` (accumulation of `content`,
  `tool_calls` and legacy `function_call` deltas, and the final Message
  construction);
* the bounded retry wrapper around the streaming request (the
  `for attempt in range(MAX_RETRIES)` loop);
* the turn orchestrator `process_conversation_turn` (the bounded
  `while step < max_steps` loop, tool dispatch, and history appending).

Python strings are modelled as sequences of Unicode code points
(`PyStr := List Nat`): a Python `str` may carry lone surrogates delivered
by the transport layer, which `Lean`'s `String` cannot represent, and the
source's `encode('utf-8', 'ignore').decode('utf-8')` step is exactly the
removal of such surrogate code points.  The network, the JSON parser for
tool arguments, and the registered tool capabilities are external
collaborators and enter the embedding as function parameters; Python
exception propagation is rendered with `Except`.
-/

/-- Python `str`, as the sequence of its Unicode code points. -/
abbrev PyStr := List Nat

/-- Code points of a Lean string literal, used to transcribe the Python
string literals of the source. -/
def pyOfString (s : String) : PyStr := s.data.map Char.toNat

/-- Unicode whitespace as recognised by Python's `str.strip()`. -/
def pyIsSpace (c : Nat) : Bool :=
  (9 ≤ c && c ≤ 13) || (28 ≤ c && c ≤ 32) || c == 133 || c == 160 ||
  c == 5760 || (8192 ≤ c && c ≤ 8202) || c == 8232 || c == 8233 ||
  c == 8239 || c == 8287 || c == 12288

/-- Python `str.strip()`: remove leading and trailing whitespace. -/
def pyStrip (s : PyStr) : PyStr :=
  ((s.dropWhile pyIsSpace).reverse.dropWhile pyIsSpace).reverse

/-- Surrogate code points, the only code points a Python `str` can hold
that are not encodable as UTF-8. -/
def pySurrogate (c : Nat) : Bool := 55296 ≤ c && c ≤ 57343

/-- Python `s.encode('utf-8', 'ignore').decode('utf-8')`: code points that
cannot be encoded are dropped. -/
def pyClean (s : PyStr) : PyStr := s.filter (fun c => !pySurrogate c)

/-! ## JSON values and Python's `json.dumps`

Tool results are JSON-serializable values; the source serializes them with
`json.dumps(result)` (default options: `ensure_ascii=True`, separators
`", "` and `": "`). -/

/-- JSON values, as produced by tool capabilities and serialized into
tool-result message content. -/
inductive Json where
  | null
  | bool (b : Bool)
  | num (n : Int)
  | str (s : PyStr)
  | arr (elems : List Json)
  | obj (fields : List (PyStr × Json))
deriving Inhabited

/-- Lowercase hexadecimal digit, as a code point. -/
def hexDigitCode (n : Nat) : Nat := if n < 10 then 48 + n else 87 + n

/-- Four lowercase hex digits, as code points. -/
def hex4 (n : Nat) : PyStr :=
  [hexDigitCode (n / 4096 % 16), hexDigitCode (n / 256 % 16),
   hexDigitCode (n / 16 % 16), hexDigitCode (n % 16)]

/-- Escaping of one code point inside a JSON string literal, following
CPython's `json.dumps` with `ensure_ascii=True`: quote, backslash and the
short control escapes get two-character forms, every other code point
outside `0x20`-`0x7e` becomes a `\uXXXX` escape (a surrogate pair for
astral code points). -/
def escCode (c : Nat) : PyStr :=
  if c == 34 then [92, 34]
  else if c == 92 then [92, 92]
  else if c == 10 then [92, 110]
  else if c == 13 then [92, 114]
  else if c == 9 then [92, 116]
  else if c == 8 then [92, 98]
  else if c == 12 then [92, 102]
  else if c < 32 || 126 < c then
    if c < 65536 then [92, 117] ++ hex4 c
    else
      [92, 117] ++ hex4 (55296 + (c - 65536) / 1024) ++
      [92, 117] ++ hex4 (56320 + (c - 65536) % 1024)
  else [c]

/-- JSON serialization of a string. -/
def dumpsStr (s : PyStr) : PyStr := [34] ++ (s.map escCode).flatten ++ [34]

mutual

/-- Python `json.dumps` with its default options. -/
def dumps : Json → PyStr
  | .null => pyOfString "null"
  | .bool b => if b then pyOfString "true" else pyOfString "false"
  | .num n => pyOfString (toString n)
  | .str s => dumpsStr s
  | .arr elems => [91] ++ dumpsArr elems ++ [93]
  | .obj fields => [123] ++ dumpsObj fields ++ [125]

/-- Serialize array elements, separated by `", "`. -/
def dumpsArr : List Json → PyStr
  | [] => []
  | [v] => dumps v
  | v :: rest => dumps v ++ [44, 32] ++ dumpsArr rest

/-- Serialize object fields, `key: value` separated by `", "`. -/
def dumpsObj : List (PyStr × Json) → PyStr
  | [] => []
  | [(k, v)] => dumpsStr k ++ [58, 32] ++ dumps v
  | (k, v) :: rest => dumpsStr k ++ [58, 32] ++ dumps v ++ [44, 32] ++ dumpsObj rest

end

/-! ## The streaming protocol

Each line of the chunked response is, after the source's classification
(lines 88-99 of `ai.py`): skipped (blank, not a `data: ` line, or a data
line whose payload fails `json.loads`), the `[DONE]` terminator, or a
parsed chunk from which `chunk.get("choices", [{}])[0].get("delta", {})`
is read.  Only the delta matters to the accumulators, so a parsed chunk is
carried here directly as its delta. -/

/-- The `function` part of a `tool_calls` delta: optional `name` and
`arguments` fragments. -/
structure FnDelta where
  name : Option PyStr := none
  arguments : Option PyStr := none
deriving DecidableEq

/-- One element of a `tool_calls` delta list: an optional zero-based
`index`, and optional `id` and `function` fragments. -/
structure ToolCallDelta where
  index : Option Nat := none
  id : Option PyStr := none
  function : Option FnDelta := none
deriving DecidableEq

/-- The `delta` object of one streamed chunk.  A `none` field models a
missing key (for `content`, also a JSON `null`, since the source tests
`delta.get("content") is not None`). -/
structure Delta where
  content : Option PyStr := none
  tool_calls : Option (List ToolCallDelta) := none
  function_call : Option FnDelta := none
deriving DecidableEq

/-- One line of the chunked response, classified as by lines 88-99 of the
source. -/
inductive StreamLine where
  /-- blank line, non-`data:` line, or malformed JSON payload: `continue`. -/
  | skip
  /-- the `data: [DONE]` terminator: stop reading. -/
  | done
  /-- a well-formed data line, carrying its delta. -/
  | chunk (delta : Delta)
deriving DecidableEq

/-- In-progress accumulator for one tool invocation, as created by
`accumulated_tool_calls.append({"id": "", "type": "function",
"function": {"name": "", "arguments": ""}})` (the constant `type` field is
omitted). -/
structure ToolCallAcc where
  id : PyStr := []
  name : PyStr := []
  arguments : PyStr := []
deriving DecidableEq

/-- The empty placeholder accumulator. -/
def emptyToolCallAcc : ToolCallAcc := {}

/-- Legacy function-call data: the `accumulated_function_call` accumulator
and also the `function_call` payload attached to a finished Message (the
source attaches the accumulator dict itself). -/
structure FunctionCall where
  name : PyStr := []
  arguments : PyStr := []
deriving DecidableEq

/-- The three accumulators of the stream decoder (lines 75-77),
initialized once before the retry loop. -/
structure DecodeState where
  accumulated_content : PyStr := []
  accumulated_tool_calls : List ToolCallAcc := []
  accumulated_function_call : FunctionCall := {}
deriving DecidableEq

/-- The accumulators as first initialized. -/
def initState : DecodeState := {}

/-- Append the fragments of one `tool_calls` delta onto an accumulator
(lines 117-124): each of `id`, `function.name`, `function.arguments` is
string-appended when the delta carries it. -/
def mergeTC (tc : ToolCallAcc) (d : ToolCallDelta) : ToolCallAcc :=
  let tc1 := match d.id with
    | some s => { tc with id := tc.id ++ s }
    | none => tc
  match d.function with
  | some f =>
    let tc2 := match f.name with
      | some s => { tc1 with name := tc1.name ++ s }
      | none => tc1
    match f.arguments with
    | some s => { tc2 with arguments := tc2.arguments ++ s }
    | none => tc2
  | none => tc1

/-- Process one `tool_calls` delta (lines 110-124): read the index with
`tc_delta.get("index", 0)`, grow the list with empty placeholders while
`len(accumulated_tool_calls) <= idx`, then merge the fragments into the
accumulator at that index. -/
def applyToolCallDelta (l : List ToolCallAcc) (d : ToolCallDelta) : List ToolCallAcc :=
  let idx := d.index.getD 0
  let padded := l ++ List.replicate (idx + 1 - l.length) emptyToolCallAcc
  padded.set idx (mergeTC (padded.getD idx emptyToolCallAcc) d)

/-- Append the fragments of a legacy `function_call` delta
(lines 126-131). -/
def applyFunctionCallDelta (acc : FunctionCall) (f : FnDelta) : FunctionCall :=
  let a1 := match f.name with
    | some s => { acc with name := acc.name ++ s }
    | none => acc
  match f.arguments with
  | some s => { a1 with arguments := a1.arguments ++ s }
  | none => a1

/-- Process the delta of one chunk (lines 101-131): `content` is appended
to the text buffer, then each element of a `tool_calls` list is applied in
order, then a `function_call` delta is applied.  (The token counting and
start-time bookkeeping of the source are purely observational and are not
modelled.) -/
def applyDelta (st : DecodeState) (d : Delta) : DecodeState :=
  let st1 := match d.content with
    | some t => { st with accumulated_content := st.accumulated_content ++ t }
    | none => st
  let st2 := match d.tool_calls with
    | some tcs =>
      { st1 with accumulated_tool_calls := tcs.foldl applyToolCallDelta st1.accumulated_tool_calls }
    | none => st1
  match d.function_call with
  | some f =>
    { st2 with accumulated_function_call := applyFunctionCallDelta st2.accumulated_function_call f }
  | none => st2

/-- Process the lines of one streaming response (the `for line in
resp.iter_lines(...)` loop): skipped lines are ignored, `[DONE]` stops the
iteration, chunks update the accumulators. -/
def processLines : List StreamLine → DecodeState → DecodeState
  | [], st => st
  | .skip :: rest, st => processLines rest st
  | .done :: _, st => st
  | .chunk d :: rest, st => processLines rest (applyDelta st d)

/-! ## The finished Message -/

/-- A finished tool invocation as attached to a Message (lines 162-169):
`id` is the accumulated id or an explicit absence marker when it stayed
empty (`tc["id"] or None`). -/
structure ToolCall where
  id : Option PyStr := none
  name : PyStr := []
  arguments : PyStr := []
deriving DecidableEq

/-- A conversation message: the dict keys used by the source.  A `none`
models a missing key, and for `content` also the explicit `None` value. -/
structure Message where
  role : PyStr := []
  content : Option PyStr := none
  tool_calls : Option (List ToolCall) := none
  function_call : Option FunctionCall := none
  tool_call_id : Option PyStr := none
  name : Option PyStr := none
deriving DecidableEq

/-- The `clean` list of lines 159-169: keep exactly the accumulators whose
name is non-empty, defaulting an empty id to the absence marker. -/
def cleanToolCalls (accs : List ToolCallAcc) : List ToolCall :=
  accs.filterMap fun tc =>
    if tc.name.isEmpty then none
    else some { id := if tc.id.isEmpty then none else some tc.id,
                name := tc.name, arguments := tc.arguments }

/-- Build the result Message from the final accumulator state
(lines 152-176): strip then UTF-8-sanitize the text buffer, store it as
content (or the absence marker when empty); if the accumulator list is
non-empty (Python truthiness) attach the `clean` sublist when that is
itself non-empty, and only otherwise (`elif`) attach a named legacy
function call. -/
def finalizeMsg (st : DecodeState) : Message :=
  let cleaned := pyClean (pyStrip st.accumulated_content)
  let base : Message :=
    { role := pyOfString "assistant",
      content := if cleaned.isEmpty then none else some cleaned }
  if !st.accumulated_tool_calls.isEmpty then
    let clean := cleanToolCalls st.accumulated_tool_calls
    if !clean.isEmpty then { base with tool_calls := some clean } else base
  else if !st.accumulated_function_call.name.isEmpty then
    { base with function_call := some st.accumulated_function_call }
  else base

/-! ## The retry wrapper

One streaming attempt either completes (its lines were iterated to the end
or to `[DONE]`) or raises a transport-level exception part-way through;
in the latter case the lines already delivered have already been folded
into the accumulators, which live OUTSIDE the retry loop in the source
(lines 75-81).  The behavior of the network on each attempt is an external
collaborator, passed as a function from the attempt number to its
outcome. -/

/-- Outcome of one streaming attempt: success with the full line sequence,
or a transport failure raised after some prefix of lines was already
processed, carrying the exception text. -/
inductive AttemptOutcome where
  | success (lines : List StreamLine)
  | failure (processed : List StreamLine) (err : PyStr)
deriving DecidableEq

/-- `MAX_RETRIES` of the source configuration. -/
def MAX_RETRIES : Nat := 3

/-- The retry loop of `stream_model` (lines 81-144): on success break with
the updated state; on failure at the last attempt overwrite
`accumulated_content` with `f"[Error: {e}]"` and break; otherwise sleep
(not modelled) and try again with the accumulators as they are.  Returns
the final state and the number of attempts made.  The fuel argument is
`MAX_RETRIES - attempt` and never runs out. -/
def retryGo (attempts : Nat → AttemptOutcome) : Nat → Nat → DecodeState → DecodeState × Nat
  | 0, attempt, st => (st, attempt)
  | fuel + 1, attempt, st =>
    match attempts attempt with
    | .success lines => (processLines lines st, attempt + 1)
    | .failure processed e =>
      let st1 := processLines processed st
      if attempt == MAX_RETRIES - 1 then
        ({ st1 with accumulated_content := pyOfString "[Error: " ++ e ++ pyOfString "]" },
         attempt + 1)
      else
        retryGo attempts fuel (attempt + 1) st1

/-- `stream_model(messages)`: run the retry loop over the streaming
attempts and build the result Message.  The request payload only feeds the
network collaborator, so the function is parametrized by the attempt
outcomes; it always returns a Message and never raises. -/
def stream_model (attempts : Nat → AttemptOutcome) : Message :=
  finalizeMsg (retryGo attempts MAX_RETRIES 0 initState).1

/-- Number of streaming attempts `stream_model` makes. -/
def attemptsMade (attempts : Nat → AttemptOutcome) : Nat :=
  (retryGo attempts MAX_RETRIES 0 initState).2

/-- The attempt behavior of a server that succeeds immediately with the
given line sequence. -/
def singleSuccess (lines : List StreamLine) : Nat → AttemptOutcome :=
  fun _ => .success lines

/-- The decode of one line sequence on fresh accumulators. -/
def decodeStream (lines : List StreamLine) : Message :=
  finalizeMsg (processLines lines initState)

/-- Final accumulator state after decoding one line sequence on fresh
accumulators. -/
def streamState (lines : List StreamLine) : DecodeState :=
  processLines lines initState

/-! ## The turn orchestrator

`process_conversation_turn(history)` repeatedly calls the model on the
full history, appends the decoded assistant Message, and either stops
(no invocations) or executes the invocations, appends their tool-result
Messages and loops, for at most `max_steps` iterations.

The model call is passed in as a function from the current history to the
decoded assistant Message: `stream_model` returns a Message on every code
path (it never raises), so this is its exact interface.  `TOOLS` is a
mapping from tool name to a capability taking keyword arguments, and
`json.loads` for argument strings is a parser returning `none` on failure;
both are external collaborators.  A Python exception raised by a
capability (or by the keyword splat on non-object arguments) is not
caught by the source and propagates, aborting the turn: it is rendered as
`Except.error`. -/

/-- A registered tool capability: takes keyword arguments, returns a
JSON-serializable result or raises. -/
abbrev Capability := List (PyStr × Json) → Except PyStr Json

/-- Calling a capability with `**args`: the splat requires the parsed
arguments to be a JSON object, anything else raises a `TypeError`. -/
def callCapability (f : Capability) (args : Json) : Except PyStr Json :=
  match args with
  | .obj kvs => f kvs
  | _ => .error (pyOfString "TypeError: arguments are not a mapping")

/-- The structured result substituted for an unregistered tool name
(lines 217 and 240): the dict literal `please see source` with key `error`
and value `Unknown tool`. -/
def unknownToolResult : Json :=
  .obj [(pyOfString "error", .str (pyOfString "Unknown tool"))]

/-- Execute one modern tool invocation (lines 207-228): parse the
accumulated argument string, substituting the empty object on parse
failure; look the name up in the registry, substituting the structured
unknown-tool result when absent; serialize the result as the content of a
`tool` Message carrying the invocation's id and name. -/
def execToolCall (tools : PyStr → Option Capability) (parseJson : PyStr → Option Json)
    (tc : ToolCall) : Except PyStr Message := do
  let args := (parseJson tc.arguments).getD (.obj [])
  let result ← match tools tc.name with
    | some f => callCapability f args
    | none => pure unknownToolResult
  pure { role := pyOfString "tool", tool_call_id := tc.id, name := some tc.name,
         content := some (dumps result) }

/-- Execute a legacy function invocation (lines 230-250): same policy,
but the result Message carries only the name, no `tool_call_id`. -/
def execFunctionCall (tools : PyStr → Option Capability) (parseJson : PyStr → Option Json)
    (fc : FunctionCall) : Except PyStr Message := do
  let args := (parseJson fc.arguments).getD (.obj [])
  let result ← match tools fc.name with
    | some f => callCapability f args
    | none => pure unknownToolResult
  pure { role := pyOfString "tool", name := some fc.name,
         content := some (dumps result) }

/-- Python truthiness of `assistant_msg.get("tool_calls")`: falsy when the
key is missing or the list is empty. -/
def pyFalsyToolCalls : Option (List ToolCall) → Bool
  | none => true
  | some l => l.isEmpty

/-- The stop condition of line 199: `not tool_calls and not
function_call`.  A present `function_call` dict always carries its two
keys and is therefore truthy. -/
def noInvocations (msg : Message) : Bool :=
  pyFalsyToolCalls msg.tool_calls && msg.function_call.isNone

/-- Execute every invocation of one assistant Message, in list order
(lines 206-250): the modern list when truthy, `elif` the legacy call. -/
def execInvocations (tools : PyStr → Option Capability) (parseJson : PyStr → Option Json)
    (msg : Message) : Except PyStr (List Message) :=
  if !pyFalsyToolCalls msg.tool_calls then
    (msg.tool_calls.getD []).mapM (execToolCall tools parseJson)
  else
    match msg.function_call with
    | some fc => do
      let m ← execFunctionCall tools parseJson fc
      pure [m]
    | none => pure []

/-- Result of one conversation turn: the extended history, the value of
`final_response`, and the final value of the `step` counter (the number of
model round-trips made). -/
structure TurnOutcome where
  history : List Message
  final_response : Option PyStr
  steps : Nat
deriving DecidableEq

/-- The `while step < max_steps` loop of `process_conversation_turn`
(lines 186-256), with fuel `max_steps - step`: call the model, append the
assistant Message; with no invocations set `final_response` to the
Message's `content` value (`assistant_msg.get("content", "")` returns the
stored value, which may be the absence marker) and stop; otherwise execute
the invocations, append the tool Messages and loop. -/
def turnLoop (callModel : List Message → Message) (tools : PyStr → Option Capability)
    (parseJson : PyStr → Option Json) :
    Nat → List Message → Option PyStr → Nat → Except PyStr TurnOutcome
  | 0, history, final_response, step => .ok ⟨history, final_response, step⟩
  | fuel + 1, history, final_response, step =>
    let assistant_msg := callModel history
    let history1 := history ++ [assistant_msg]
    if noInvocations assistant_msg then
      .ok ⟨history1, assistant_msg.content, step + 1⟩
    else
      match execInvocations tools parseJson assistant_msg with
      | .error e => .error e
      | .ok tool_messages =>
        turnLoop callModel tools parseJson fuel (history1 ++ tool_messages) final_response (step + 1)

/-- `max_steps` of line 187. -/
def max_steps : Nat := 20

/-- `process_conversation_turn(history)`: run the turn loop from the given
history with `final_response = ""` and `step = 0`. -/
def process_conversation_turn (callModel : List Message → Message)
    (tools : PyStr → Option Capability) (parseJson : PyStr → Option Json)
    (history : List Message) : Except PyStr TurnOutcome :=
  turnLoop callModel tools parseJson max_steps history (some (pyOfString "")) 0

/-- The `final_response` a completed turn returned, or `none` when the
turn aborted with an exception. -/
def turnFinal : Except PyStr TurnOutcome → Option (Option PyStr)
  | .ok o => some o.final_response
  | .error _ => none

/-- Final response and round-trip count of a completed turn. -/
def turnSummary : Except PyStr TurnOutcome → Option (Option PyStr × Nat)
  | .ok o => some (o.final_response, o.steps)
  | .error _ => none

/-- The JSON value placed under the `response` key by the `/chat` handler
(line 291): the turn's return value, which is a string or Python's
`None`. -/
def chatResponseValue : Option PyStr → Json
  | some s => .str s
  | none => .null

/-- The body written by the `/chat` handler (lines 291-292):
`json.dumps()` of the single-key response object. -/
def chatResponseBody (t : Option PyStr) : PyStr :=
  dumps (.obj [(pyOfString "response", chatResponseValue t)])

/-! ## Reference expressions used by the claims

The claims speak about "the concatenation of the fragments for index `i`
in arrival order"; these definitions give those expressions a name.  They
are specification-side readings of the protocol, to be compared against
the decoder above. -/

/-- The index a `tool_calls` delta addresses: `tc_delta.get("index", 0)`. -/
def tcIndex (d : ToolCallDelta) : Nat := d.index.getD 0

/-- The id fragment a delta carries (empty when absent). -/
def idFrag (d : ToolCallDelta) : PyStr := d.id.getD []

/-- The name fragment a delta carries (empty when absent). -/
def nameFrag (d : ToolCallDelta) : PyStr := (d.function.bind FnDelta.name).getD []

/-- The arguments fragment a delta carries (empty when absent). -/
def argFrag (d : ToolCallDelta) : PyStr := (d.function.bind FnDelta.arguments).getD []

/-- Concatenation, in arrival order, of the `f`-fragments of the deltas
addressing index `i`. -/
def fragsAt (f : ToolCallDelta → PyStr) (i : Nat) : List ToolCallDelta → PyStr
  | [] => []
  | d :: ds => (if tcIndex d = i then f d else []) ++ fragsAt f i ds

/-- All `tool_calls` deltas of a line sequence, in arrival order, up to
the `[DONE]` terminator. -/
def tcDeltasOf : List StreamLine → List ToolCallDelta
  | [] => []
  | .skip :: rest => tcDeltasOf rest
  | .done :: _ => []
  | .chunk d :: rest => d.tool_calls.getD [] ++ tcDeltasOf rest

/-- Concatenation, in arrival order, of the `content` fragments of a line
sequence, up to the `[DONE]` terminator. -/
def contentFrags : List StreamLine → PyStr
  | [] => []
  | .skip :: rest => contentFrags rest
  | .done :: _ => []
  | .chunk d :: rest => d.content.getD [] ++ contentFrags rest

/-- Length of the accumulator list after processing a delta sequence
starting from length `n`: each delta grows the list to at least
`index + 1`. -/
def accLenFrom (n : Nat) : List ToolCallDelta → Nat
  | [] => n
  | d :: ds => accLenFrom (max n (tcIndex d + 1)) ds

/-- The invocation accumulator at position `i`, the empty placeholder when
the list is shorter. -/
def getAcc (l : List ToolCallAcc) (i : Nat) : ToolCallAcc :=
  l.getD i emptyToolCallAcc

/-- A line carries only text content: it is not a chunk, or its delta has
neither a `tool_calls` nor a `function_call` key. -/
def contentOnlyLine : StreamLine → Bool
  | .chunk d => d.tool_calls.isNone && d.function_call.isNone
  | _ => true

/-- The whole accumulator list converted to Message invocations with ids
defaulted, as claim C5 reads "attach the full list" (the source instead
attaches the `clean` sublist). -/
def fullToolCallList (accs : List ToolCallAcc) : List ToolCall :=
  accs.map fun tc =>
    { id := if tc.id.isEmpty then none else some tc.id,
      name := tc.name, arguments := tc.arguments }

/-- Claim C5 as stated, for one line sequence: the decoded Message never
carries both invocation forms; if any accumulator has a non-empty name the
full list is attached; otherwise a named legacy accumulator is attached as
the Message's function invocation. -/
abbrev claimC5Holds (lines : List StreamLine) : Prop :=
  (¬((stream_model (singleSuccess lines)).tool_calls.isSome ∧
     (stream_model (singleSuccess lines)).function_call.isSome)) ∧
  ((streamState lines).accumulated_tool_calls.any (fun tc => !tc.name.isEmpty) = true →
    (stream_model (singleSuccess lines)).tool_calls =
      some (fullToolCallList (streamState lines).accumulated_tool_calls)) ∧
  ((streamState lines).accumulated_tool_calls.any (fun tc => !tc.name.isEmpty) = false →
    (streamState lines).accumulated_function_call.name ≠ [] →
    (stream_model (singleSuccess lines)).function_call =
      some (streamState lines).accumulated_function_call)

/-! ## Concrete inputs for counterexamples and witnesses -/

/-- An empty tool registry. -/
def toolsNone : PyStr → Option Capability := fun _ => none

/-- An argument parser that always fails (`json.loads` raising), making
every execution fall back to the empty argument object. -/
def parseNone : PyStr → Option Json := fun _ => none

/-- An assistant Message with text content and one tool invocation. -/
def msgToolX : Message :=
  { role := pyOfString "assistant", content := some (pyOfString "x"),
    tool_calls := some [{ id := some (pyOfString "c1"), name := pyOfString "foo",
                          arguments := pyOfString "\x7b\x7d" }] }

/-- A model that answers every request with `msgToolX`. -/
def cmToolX : List Message → Message := fun _ => msgToolX

/-- An assistant Message with text content and no invocations. -/
def msgHello : Message :=
  { role := pyOfString "assistant", content := some (pyOfString "hello") }

/-- A model that answers every request with `msgHello`. -/
def cmHello : List Message → Message := fun _ => msgHello

/-- A model whose stream always ends immediately with zero data chunks. -/
def emptyTurnModel : List Message → Message :=
  fun _ => stream_model (singleSuccess [])

/-- Lines of the successful attempt in the C2 scenarios. -/
def cexLines : List StreamLine :=
  [.chunk { content := some (pyOfString "def") }, .done]

/-- Attempt outcomes for the C2 counterexample: the first attempt fails
mid-stream after one content chunk was processed, the second fails before
any data, the third succeeds. -/
def cexAttempts : Nat → AttemptOutcome := fun k =>
  match k with
  | 0 => .failure [.chunk { content := some (pyOfString "abc") }] (pyOfString "boom")
  | 1 => .failure [] (pyOfString "boom")
  | _ => .success cexLines

/-- Attempt outcomes for the C2 witness: two transport failures that
process no data, then success. -/
def witAttempts : Nat → AttemptOutcome := fun k =>
  match k with
  | 0 => .failure [] (pyOfString "refused")
  | 1 => .failure [] (pyOfString "timeout")
  | _ => .success cexLines

/-- Attempt outcomes where every attempt fails before any data. -/
def allFailAttempts : Nat → AttemptOutcome :=
  fun _ => .failure [] (pyOfString "conn refused")

/-- Lines for the C3 witness: whitespace-padded fragments, a lone
surrogate, a skipped line, and trailing data after `[DONE]`. -/
def w3Lines : List StreamLine :=
  [.chunk { content := some (pyOfString "  hi") }, .skip,
   .chunk { content := some ([55296] ++ pyOfString " there  ") }, .done,
   .chunk { content := some (pyOfString "IGNORED") }]

/-- Lines for the C5 counterexample: a `tool_calls` delta carrying only an
id fragment, then a named legacy `function_call` delta. -/
def c5Lines : List StreamLine :=
  [.chunk { tool_calls := some [{ index := some 0, id := some (pyOfString "x") }] },
   .chunk { function_call := some { name := some (pyOfString "f") } }]

/-- Lines for the C5 amended witness: one named tool invocation at
index 1, index 0 never named. -/
def w5Lines : List StreamLine :=
  [.chunk { tool_calls := some [{ index := some 1, id := some (pyOfString "B"),
                                  function := some { name := some (pyOfString "bar"),
                                                     arguments := some (pyOfString "\x7b\x7d") } }] }]

/-- Claim C7 as stated, at the empty-registry instance: the empty stream
decodes to an absent-content Message with no invocations, and the turn
treats it as a final answer with EMPTY TEXT (so that the HTTP path can
return a response string). -/
abbrev claimC7Holds : Prop :=
  stream_model (singleSuccess []) = { role := pyOfString "assistant" } ∧
  turnFinal (process_conversation_turn emptyTurnModel toolsNone parseNone []) =
    some (some (pyOfString ""))

/-- Tool invocation for the C9 witness. -/
def w9ToolCall : ToolCall :=
  { id := some (pyOfString "c1"), name := pyOfString "weather",
    arguments := pyOfString "not json" }

/-- Legacy invocation for the C9 witness. -/
def w9FunctionCall : FunctionCall :=
  { name := pyOfString "weather", arguments := pyOfString "\x7b\x7d" }

/-- Tool-call delta with no index field, for the C10 witness. -/
def w10Delta : ToolCallDelta :=
  { id := some (pyOfString "A"),
    function := some { name := some (pyOfString "f"), arguments := some (pyOfString "(") } }

/-- Accumulator list for the C10 witness. -/
def w10Accs : List ToolCallAcc :=
  [{ id := pyOfString "z", name := pyOfString "g", arguments := [] }]

/-! ## Helper lemmas -/

theorem getAcc_nil (i : Nat) : getAcc [] i = emptyToolCallAcc := by
  cases i <;> rfl

theorem getAcc_append_replicate (l : List ToolCallAcc) (k i : Nat) :
    getAcc (l ++ List.replicate k emptyToolCallAcc) i = getAcc l i := by
  induction l generalizing i with
  | nil =>
    rw [List.nil_append, getAcc_nil]
    induction k generalizing i with
    | zero => rfl
    | succ k ih =>
      cases i with
      | zero => rfl
      | succ i =>
        rw [List.replicate_succ]
        simpa only [getAcc, List.getD_cons_succ] using ih i
  | cons a l ih =>
    cases i with
    | zero => rfl
    | succ i => simpa [getAcc] using ih i

theorem getAcc_set (l : List ToolCallAcc) (j i : Nat) (v : ToolCallAcc)
    (hj : j < l.length) :
    getAcc (l.set j v) i = if i = j then v else getAcc l i := by
  induction l generalizing i j with
  | nil => simp at hj
  | cons a l ih =>
    cases j with
    | zero =>
      cases i with
      | zero => rfl
      | succ i => simp [getAcc]
    | succ j =>
      cases i with
      | zero => simp [getAcc]
      | succ i =>
        have hj2 : j < l.length := Nat.lt_of_succ_lt_succ hj
        simp only [List.set, getAcc, List.getD_cons_succ, Nat.succ.injEq] at ih ⊢
        rw [ih j i hj2]

theorem mergeTC_eq (tc : ToolCallAcc) (d : ToolCallDelta) :
    mergeTC tc d =
      { id := tc.id ++ idFrag d, name := tc.name ++ nameFrag d,
        arguments := tc.arguments ++ argFrag d } := by
  rcases d with ⟨idx, did, dfn⟩
  rcases dfn with _ | ⟨fn, fa⟩
  · cases did <;> simp [mergeTC, idFrag, nameFrag, argFrag]
  · cases did <;> cases fn <;> cases fa <;> simp [mergeTC, idFrag, nameFrag, argFrag]

theorem length_applyToolCallDelta (l : List ToolCallAcc) (d : ToolCallDelta) :
    (applyToolCallDelta l d).length = max l.length (tcIndex d + 1) := by
  unfold applyToolCallDelta
  simp only [List.length_set, List.length_append, List.length_replicate, tcIndex]
  omega

theorem getAcc_applyToolCallDelta (l : List ToolCallAcc) (d : ToolCallDelta) (i : Nat) :
    getAcc (applyToolCallDelta l d) i =
      if tcIndex d = i then mergeTC (getAcc l i) d else getAcc l i := by
  unfold applyToolCallDelta
  have hlen : d.index.getD 0 <
      (l ++ List.replicate (d.index.getD 0 + 1 - l.length) emptyToolCallAcc).length := by
    simp only [List.length_append, List.length_replicate]
    omega
  rw [getAcc_set _ _ _ _ hlen]
  have hpad : ∀ n, List.getD (l ++ List.replicate (d.index.getD 0 + 1 - l.length) emptyToolCallAcc)
      n emptyToolCallAcc = getAcc l n := fun n => getAcc_append_replicate l _ n
  rw [hpad (d.index.getD 0), getAcc_append_replicate l (d.index.getD 0 + 1 - l.length) i]
  by_cases h : i = d.index.getD 0
  · subst h
    simp [tcIndex]
  · rw [if_neg h, if_neg (show ¬ tcIndex d = i from fun hh => h hh.symm)]

theorem getAcc_foldl_applyTC :
    ∀ (ds : List ToolCallDelta) (l : List ToolCallAcc) (i : Nat),
    getAcc (ds.foldl applyToolCallDelta l) i =
      { id := (getAcc l i).id ++ fragsAt idFrag i ds,
        name := (getAcc l i).name ++ fragsAt nameFrag i ds,
        arguments := (getAcc l i).arguments ++ fragsAt argFrag i ds }
  | [], l, i => by simp [fragsAt]
  | d :: ds, l, i => by
    rw [List.foldl_cons, getAcc_foldl_applyTC ds, getAcc_applyToolCallDelta]
    by_cases h : tcIndex d = i
    · simp [fragsAt, h, mergeTC_eq, List.append_assoc]
    · simp [fragsAt, h]

theorem length_foldl_applyTC :
    ∀ (ds : List ToolCallDelta) (l : List ToolCallAcc),
    (ds.foldl applyToolCallDelta l).length = accLenFrom l.length ds
  | [], _ => rfl
  | d :: ds, l => by
    rw [List.foldl_cons, length_foldl_applyTC ds (applyToolCallDelta l d),
      length_applyToolCallDelta]
    rfl

theorem applyDelta_toolAccs (st : DecodeState) (d : Delta) :
    (applyDelta st d).accumulated_tool_calls =
      (d.tool_calls.getD []).foldl applyToolCallDelta st.accumulated_tool_calls := by
  rcases d with ⟨c, tcs, fc⟩
  cases c <;> cases tcs <;> cases fc <;> simp [applyDelta]

theorem processLines_toolAccs :
    ∀ (lines : List StreamLine) (st : DecodeState),
    (processLines lines st).accumulated_tool_calls =
      (tcDeltasOf lines).foldl applyToolCallDelta st.accumulated_tool_calls
  | [], _ => rfl
  | .skip :: rest, st => by
    rw [processLines, processLines_toolAccs rest st]
    rfl
  | .done :: _, _ => rfl
  | .chunk d :: rest, st => by
    rw [processLines, processLines_toolAccs rest (applyDelta st d), applyDelta_toolAccs]
    simp [tcDeltasOf, List.foldl_append]

theorem applyDelta_contentOnly (st : DecodeState) (d : Delta)
    (h1 : d.tool_calls = none) (h2 : d.function_call = none) :
    applyDelta st d =
      { st with accumulated_content := st.accumulated_content ++ d.content.getD [] } := by
  rcases d with ⟨c, tcs, fc⟩
  simp only at h1 h2
  subst h1
  subst h2
  cases c <;> simp [applyDelta]

theorem processLines_contentOnly :
    ∀ (lines : List StreamLine) (st : DecodeState),
    (∀ l ∈ lines, contentOnlyLine l = true) →
    processLines lines st =
      { st with accumulated_content := st.accumulated_content ++ contentFrags lines }
  | [], st, _ => by simp [processLines, contentFrags]
  | .skip :: rest, st, h => by
    rw [processLines, processLines_contentOnly rest st (fun l hl => h l (List.mem_cons_of_mem _ hl))]
    rfl
  | .done :: rest, st, _ => by simp [processLines, contentFrags]
  | .chunk d :: rest, st, h => by
    have hd := h _ (List.mem_cons_self _ _)
    simp only [contentOnlyLine, Bool.and_eq_true, Option.isNone_iff_eq_none] at hd
    rw [processLines, applyDelta_contentOnly st d hd.1 hd.2,
      processLines_contentOnly rest _ (fun l hl => h l (List.mem_cons_of_mem _ hl))]
    simp [contentFrags, List.append_assoc]

theorem finalizeMsg_content (st : DecodeState) :
    (finalizeMsg st).content =
      (if (pyClean (pyStrip st.accumulated_content)).isEmpty then none
       else some (pyClean (pyStrip st.accumulated_content))) := by
  unfold finalizeMsg
  dsimp only
  split
  · split <;> rfl
  · split <;> rfl

theorem finalizeMsg_role (st : DecodeState) :
    (finalizeMsg st).role = pyOfString "assistant" := by
  unfold finalizeMsg
  dsimp only
  split
  · split <;> rfl
  · split <;> rfl

theorem cleanToolCalls_eq_nil_iff (accs : List ToolCallAcc) :
    cleanToolCalls accs = [] ↔ ∀ tc ∈ accs, tc.name = [] := by
  induction accs with
  | nil => simp [cleanToolCalls]
  | cons tc accs ih =>
    simp only [cleanToolCalls, List.filterMap_cons] at ih ⊢
    by_cases h : tc.name.isEmpty
    · have hnm : tc.name = [] := by simpa using h
      simp [h, hnm, ih]
    · have hnm : ¬ tc.name = [] := by simpa using h
      simp [h, hnm]

/-- Case analysis of the Message construction (lines 156-176): which
invocation form, if any, the result carries, as a function of the final
accumulator state. -/
theorem finalizeMsg_attachment (st : DecodeState) :
    (¬((finalizeMsg st).tool_calls.isSome ∧ (finalizeMsg st).function_call.isSome)) ∧
    ((∃ tc ∈ st.accumulated_tool_calls, tc.name ≠ []) →
      (finalizeMsg st).tool_calls = some (cleanToolCalls st.accumulated_tool_calls) ∧
      (finalizeMsg st).function_call = none) ∧
    (st.accumulated_tool_calls = [] →
      st.accumulated_function_call.name ≠ [] →
      (finalizeMsg st).function_call = some st.accumulated_function_call ∧
      (finalizeMsg st).tool_calls = none) ∧
    (st.accumulated_tool_calls ≠ [] →
      (∀ tc ∈ st.accumulated_tool_calls, tc.name = []) →
      (finalizeMsg st).tool_calls = none ∧ (finalizeMsg st).function_call = none) := by
  unfold finalizeMsg
  dsimp only
  by_cases hA : st.accumulated_tool_calls = []
  · by_cases hF : st.accumulated_function_call.name = []
    · refine ⟨?_, ?_, ?_, ?_⟩ <;> simp [hA, hF]
    · refine ⟨?_, ?_, ?_, ?_⟩ <;> simp [hA, hF]
  · by_cases hC : cleanToolCalls st.accumulated_tool_calls = []
    · have hall := (cleanToolCalls_eq_nil_iff _).mp hC
      refine ⟨?_, ?_, ?_, ?_⟩ <;> simp [hA, hC]
      exact fun tc htc => hall tc htc
    · refine ⟨?_, ?_, ?_, ?_⟩ <;> simp [hA, hC]
      by_contra hno
      push_neg at hno
      exact hC ((cleanToolCalls_eq_nil_iff _).mpr hno)

theorem pyStrip_bracketed (a : Nat) (m : PyStr) (b : Nat)
    (ha : pyIsSpace a = false) (hb : pyIsSpace b = false) :
    pyStrip (a :: (m ++ [b])) = a :: (m ++ [b]) := by
  unfold pyStrip
  have h1 : (a :: (m ++ [b])).dropWhile pyIsSpace = a :: (m ++ [b]) := by
    rw [List.dropWhile_cons, ha]
    simp
  rw [h1]
  have h2 : (a :: (m ++ [b])).reverse = b :: (m.reverse ++ [a]) := by
    simp
  rw [h2]
  have h3 : (b :: (m.reverse ++ [a])).dropWhile pyIsSpace = b :: (m.reverse ++ [a]) := by
    rw [List.dropWhile_cons, hb]
    simp
  rw [h3]
  simp

theorem pyClean_append (s t : PyStr) : pyClean (s ++ t) = pyClean s ++ pyClean t :=
  List.filter_append _ _

theorem errorContent_clean (e : PyStr) :
    pyClean (pyStrip (pyOfString "[Error: " ++ e ++ pyOfString "]")) =
      pyOfString "[Error: " ++ pyClean e ++ pyOfString "]" := by
  have hshape : pyOfString "[Error: " ++ e ++ pyOfString "]"
      = 91 :: ((pyOfString "Error: " ++ e) ++ [93]) := by
    show (91 :: pyOfString "Error: ") ++ e ++ [93] = _
    simp [List.append_assoc]
  rw [hshape, pyStrip_bracketed 91 _ 93 (by decide) (by decide)]
  show pyClean ((91 :: (pyOfString "Error: " ++ e)) ++ [93]) = _
  rw [pyClean_append]
  have h91 : pyClean (91 :: (pyOfString "Error: " ++ e))
      = 91 :: pyClean (pyOfString "Error: " ++ e) := by
    simp [pyClean, pySurrogate]
  rw [h91, pyClean_append]
  have hA : pyClean (pyOfString "Error: ") = pyOfString "Error: " := by decide
  have hB : pyClean [93] = [93] := by decide
  rw [hA, hB]
  show 91 :: (pyOfString "Error: " ++ (pyClean e ++ [93]))
      = (91 :: pyOfString "Error: ") ++ (pyClean e ++ [93])
  rw [List.cons_append]

theorem retryGo_success_step (attempts : Nat → AttemptOutcome) (fuel attempt : Nat)
    (st : DecodeState) (lines : List StreamLine)
    (ha : attempts attempt = .success lines) :
    retryGo attempts (fuel + 1) attempt st = (processLines lines st, attempt + 1) := by
  simp [retryGo, ha]

theorem retryGo_fail_step (attempts : Nat → AttemptOutcome) (fuel attempt : Nat)
    (st : DecodeState) (p : List StreamLine) (e : PyStr)
    (ha : attempts attempt = .failure p e) (hlast : (attempt == MAX_RETRIES - 1) = false) :
    retryGo attempts (fuel + 1) attempt st =
      retryGo attempts fuel (attempt + 1) (processLines p st) := by
  simp [retryGo, ha, hlast]

theorem retryGo_fail_last (attempts : Nat → AttemptOutcome) (fuel attempt : Nat)
    (st : DecodeState) (p : List StreamLine) (e : PyStr)
    (ha : attempts attempt = .failure p e) (hlast : (attempt == MAX_RETRIES - 1) = true) :
    retryGo attempts (fuel + 1) attempt st =
      ({ processLines p st with
          accumulated_content := pyOfString "[Error: " ++ e ++ pyOfString "]" },
       attempt + 1) := by
  simp [retryGo, ha, hlast]

theorem retryGo_two_failures_then_success (attempts : Nat → AttemptOutcome)
    (p0 p1 : List StreamLine) (e0 e1 : PyStr) (L : List StreamLine)
    (h0 : attempts 0 = .failure p0 e0) (h1 : attempts 1 = .failure p1 e1)
    (h2 : attempts 2 = .success L) :
    retryGo attempts MAX_RETRIES 0 initState =
      (processLines L (processLines p1 (processLines p0 initState)), 3) := by
  show retryGo attempts (2 + 1) 0 initState = _
  rw [retryGo_fail_step attempts 2 0 initState p0 e0 h0 (by decide)]
  show retryGo attempts (1 + 1) 1 _ = _
  rw [retryGo_fail_step attempts 1 1 _ p1 e1 h1 (by decide)]
  show retryGo attempts (0 + 1) 2 _ = _
  rw [retryGo_success_step attempts 0 2 _ L h2]

theorem retryGo_all_failures (attempts : Nat → AttemptOutcome)
    (p0 p1 p2 : List StreamLine) (e0 e1 e2 : PyStr)
    (h0 : attempts 0 = .failure p0 e0) (h1 : attempts 1 = .failure p1 e1)
    (h2 : attempts 2 = .failure p2 e2) :
    retryGo attempts MAX_RETRIES 0 initState =
      ({ processLines p2 (processLines p1 (processLines p0 initState)) with
          accumulated_content := pyOfString "[Error: " ++ e2 ++ pyOfString "]" },
       3) := by
  show retryGo attempts (2 + 1) 0 initState = _
  rw [retryGo_fail_step attempts 2 0 initState p0 e0 h0 (by decide)]
  show retryGo attempts (1 + 1) 1 _ = _
  rw [retryGo_fail_step attempts 1 1 _ p1 e1 h1 (by decide)]
  show retryGo attempts (0 + 1) 2 _ = _
  rw [retryGo_fail_last attempts 0 2 _ p2 e2 h2 (by decide)]

theorem turnLoop_cutoff (callModel : List Message → Message)
    (tools : PyStr → Option Capability) (parseJson : PyStr → Option Json)
    (hcm : ∀ h, noInvocations (callModel h) = false)
    (hexec : ∀ h, ∃ tms, execInvocations tools parseJson (callModel h) = .ok tms) :
    ∀ (fuel : Nat) (history : List Message) (final : Option PyStr) (step : Nat),
    ∃ h2, turnLoop callModel tools parseJson fuel history final step = .ok ⟨h2, final, step + fuel⟩
  | 0, history, final, step => ⟨history, by simp [turnLoop]⟩
  | fuel + 1, history, final, step => by
    obtain ⟨tms, htms⟩ := hexec history
    obtain ⟨h2, ih⟩ := turnLoop_cutoff callModel tools parseJson hcm hexec fuel
      ((history ++ [callModel history]) ++ tms) final (step + 1)
    refine ⟨h2, ?_⟩
    rw [turnLoop]
    simp only [hcm history, Bool.false_eq_true, if_false, htms, ih]
    have : step + 1 + fuel = step + (fuel + 1) := by omega
    rw [this]

theorem turnLoop_stop_now (callModel : List Message → Message)
    (tools : PyStr → Option Capability) (parseJson : PyStr → Option Json)
    (fuel : Nat) (history : List Message) (final : Option PyStr) (step : Nat)
    (h : noInvocations (callModel history) = true) :
    turnLoop callModel tools parseJson (fuel + 1) history final step =
      .ok ⟨history ++ [callModel history], (callModel history).content, step + 1⟩ := by
  rw [turnLoop]
  simp only [h, if_true]

/-! ## The claims -/

/-- C1 counterexample: with a model that always returns content `"x"`
together with a tool invocation, the turn force-terminates at 20
round-trips but returns the empty string, NOT the partial content that was
last produced. -/
theorem claimC1_counterexample :
    cmToolX = (fun _ => msgToolX) ∧
    noInvocations msgToolX = false ∧
    msgToolX.content = some (pyOfString "x") ∧
    turnSummary (process_conversation_turn cmToolX toolsNone parseNone []) =
      some (some (pyOfString ""), 20) ∧
    some (pyOfString "") ≠ msgToolX.content :=
  ⟨rfl, rfl, rfl, by decide, by decide⟩

/-- C1 (amended): for every turn in which each decoded assistant Message
contains at least one tool invocation or legacy function invocation (and
tool execution itself returns normally), `process_conversation_turn`
terminates by forced cutoff after exactly 20 model round-trips, and
returns the empty string — `final_response` keeps its initial value, any
partial content of the assistant messages is not returned. -/
theorem c1_turn_forced_cutoff_returns_empty (callModel : List Message → Message)
    (tools : PyStr → Option Capability) (parseJson : PyStr → Option Json)
    (history : List Message)
    (hcm : ∀ h, noInvocations (callModel h) = false)
    (hexec : ∀ h, ∃ tms, execInvocations tools parseJson (callModel h) = .ok tms) :
    ∃ h2, process_conversation_turn callModel tools parseJson history =
      .ok ⟨h2, some (pyOfString ""), 20⟩ := by
  have h := turnLoop_cutoff callModel tools parseJson hcm hexec max_steps history
    (some (pyOfString "")) 0
  simpa [process_conversation_turn, max_steps] using h

/-- C1 witness: the amended theorem applied to the constant model
`cmToolX` with an empty registry. -/
theorem c1_witness :
    ∃ h2, process_conversation_turn cmToolX toolsNone parseNone [] =
      .ok ⟨h2, some (pyOfString ""), 20⟩ :=
  c1_turn_forced_cutoff_returns_empty cmToolX toolsNone parseNone []
    (fun _ => rfl) (fun _ => ⟨_, rfl⟩)

/-- C2 counterexample: the first attempt fails mid-stream after content
`"abc"` was processed, the second fails before any data, the third
succeeds with content `"def"`: exactly 3 attempts are made, but the result
is NOT the decode of the successful attempt alone — the accumulators are
shared across attempts and the content comes out as `"abcdef"`. -/
theorem claimC2_counterexample :
    cexAttempts 0 = .failure [.chunk { content := some (pyOfString "abc") }] (pyOfString "boom") ∧
    cexAttempts 1 = .failure [] (pyOfString "boom") ∧
    cexAttempts 2 = .success cexLines ∧
    attemptsMade cexAttempts = 3 ∧
    stream_model cexAttempts ≠ decodeStream cexLines ∧
    (stream_model cexAttempts).content = some (pyOfString "abcdef") ∧
    (decodeStream cexLines).content = some (pyOfString "def") :=
  ⟨rfl, rfl, rfl, rfl, by decide, by decide, by decide⟩

/-- C2 (amended): if the first two attempts fail at transport level and
the third succeeds, `stream_model` makes exactly 3 attempts, performs no
error-text substitution, and returns the Message decoded from the
accumulators carried ACROSS the attempts (they are initialized once,
outside the retry loop); whenever the two failed attempts processed no
data before raising, this equals the decode of the successful attempt
alone. -/
theorem c2_retry_keeps_accumulators (attempts : Nat → AttemptOutcome)
    (p0 p1 : List StreamLine) (e0 e1 : PyStr) (L : List StreamLine)
    (h0 : attempts 0 = .failure p0 e0) (h1 : attempts 1 = .failure p1 e1)
    (h2 : attempts 2 = .success L) :
    attemptsMade attempts = 3 ∧
    stream_model attempts =
      finalizeMsg (processLines L (processLines p1 (processLines p0 initState))) ∧
    (p0 = [] → p1 = [] → stream_model attempts = decodeStream L) := by
  have hgo := retryGo_two_failures_then_success attempts p0 p1 e0 e1 L h0 h1 h2
  refine ⟨?_, ?_, ?_⟩
  · rw [attemptsMade, hgo]
  · rw [stream_model, hgo]
  · intro hp0 hp1
    subst hp0
    subst hp1
    rw [stream_model, hgo]
    rfl

/-- C2 witness: the amended theorem applied to two data-free failures
followed by a success. -/
theorem c2_witness :
    attemptsMade witAttempts = 3 ∧
    stream_model witAttempts =
      finalizeMsg (processLines cexLines (processLines [] (processLines [] initState))) ∧
    (([] : List StreamLine) = [] → ([] : List StreamLine) = [] →
      stream_model witAttempts = decodeStream cexLines) :=
  c2_retry_keeps_accumulators witAttempts [] [] (pyOfString "refused") (pyOfString "timeout")
    cexLines rfl rfl rfl

/-- C3: for every chunk sequence whose deltas carry only text content, the
Message returned by `stream_model` has content equal to the concatenation
of all content fragments in arrival order, trimmed of surrounding
whitespace, with un-encodable (surrogate) code points removed — stored as
the explicit absence marker when the result is empty — and carries no
invocations. -/
theorem c3_content_only_stream (lines : List StreamLine)
    (h : ∀ l ∈ lines, contentOnlyLine l = true) :
    stream_model (singleSuccess lines) =
      { role := pyOfString "assistant",
        content := if (pyClean (pyStrip (contentFrags lines))).isEmpty then none
                   else some (pyClean (pyStrip (contentFrags lines))),
        tool_calls := none, function_call := none, tool_call_id := none,
        name := none } := by
  have hst : streamState lines =
      { accumulated_content := contentFrags lines,
        accumulated_tool_calls := [], accumulated_function_call := {} } := by
    have hp := processLines_contentOnly lines initState h
    simpa [streamState, initState] using hp
  have hm : stream_model (singleSuccess lines) = finalizeMsg (streamState lines) := rfl
  rw [hm, hst]
  unfold finalizeMsg
  simp

/-- C3 witness: the theorem applied to a concrete stream with padded
fragments, a lone surrogate, a skipped line and post-`[DONE]` data. -/
theorem c3_witness :
    stream_model (singleSuccess w3Lines) =
      { role := pyOfString "assistant",
        content := if (pyClean (pyStrip (contentFrags w3Lines))).isEmpty then none
                   else some (pyClean (pyStrip (contentFrags w3Lines))),
        tool_calls := none, function_call := none, tool_call_id := none,
        name := none } :=
  c3_content_only_stream w3Lines (by decide)

/-- C4: for every chunk sequence, the invocation accumulator at
position `i` ends up with id, name and arguments each equal to the
concatenation of that index's respective fragments in arrival order,
regardless of the delivery order of other indices, and the accumulator
list is grown with empty placeholders exactly up to the largest index
seen. -/
theorem c4_tool_call_accumulation (lines : List StreamLine) (i : Nat) :
    getAcc (streamState lines).accumulated_tool_calls i =
      { id := fragsAt idFrag i (tcDeltasOf lines),
        name := fragsAt nameFrag i (tcDeltasOf lines),
        arguments := fragsAt argFrag i (tcDeltasOf lines) } ∧
    (streamState lines).accumulated_tool_calls.length = accLenFrom 0 (tcDeltasOf lines) := by
  have htc : (streamState lines).accumulated_tool_calls =
      (tcDeltasOf lines).foldl applyToolCallDelta [] := by
    have hp := processLines_toolAccs lines initState
    simpa [streamState, initState] using hp
  constructor
  · rw [htc, getAcc_foldl_applyTC]
    simp [getAcc_nil, emptyToolCallAcc]
  · rw [htc, length_foldl_applyTC]
    rfl

/-- C5 counterexample: after a `tool_calls` delta that carries only an id
fragment (so the accumulator list is non-empty but no accumulator is
named) and a named legacy `function_call` delta, the decoded Message
attaches NEITHER form: the claim's "otherwise attach the named legacy
accumulator" fails because the `elif` is skipped whenever the accumulator
list is non-empty, named or not. -/
theorem claimC5_counterexample : ¬ claimC5Holds c5Lines := by decide

/-- C5 (amended): the Message returned by `stream_model` never carries
both invocation forms.  If some accumulator has a non-empty name, the
`clean` SUBLIST of accumulators with non-empty names is attached (ids
defaulted to the absence marker) and no legacy call is attached; if the
accumulator list is empty and the legacy accumulator is named, the legacy
call is attached; but when the accumulator list is non-empty with all
names empty, neither form is attached, even if the legacy accumulator has
a name. -/
theorem c5_attachment (lines : List StreamLine) :
    (¬((stream_model (singleSuccess lines)).tool_calls.isSome ∧
       (stream_model (singleSuccess lines)).function_call.isSome)) ∧
    ((∃ tc ∈ (streamState lines).accumulated_tool_calls, tc.name ≠ []) →
      (stream_model (singleSuccess lines)).tool_calls =
        some (cleanToolCalls (streamState lines).accumulated_tool_calls) ∧
      (stream_model (singleSuccess lines)).function_call = none) ∧
    ((streamState lines).accumulated_tool_calls = [] →
      (streamState lines).accumulated_function_call.name ≠ [] →
      (stream_model (singleSuccess lines)).function_call =
        some (streamState lines).accumulated_function_call ∧
      (stream_model (singleSuccess lines)).tool_calls = none) ∧
    ((streamState lines).accumulated_tool_calls ≠ [] →
      (∀ tc ∈ (streamState lines).accumulated_tool_calls, tc.name = []) →
      (stream_model (singleSuccess lines)).tool_calls = none ∧
      (stream_model (singleSuccess lines)).function_call = none) :=
  finalizeMsg_attachment (streamState lines)

/-- C5 witness: the amended theorem applied to a stream naming only the
invocation at index 1: the attached list is the `clean` sublist. -/
theorem c5_witness :
    (stream_model (singleSuccess w5Lines)).tool_calls =
      some (cleanToolCalls (streamState w5Lines).accumulated_tool_calls) ∧
    (stream_model (singleSuccess w5Lines)).function_call = none :=
  (c5_attachment w5Lines).2.1 (by decide)

/-- C6: when every one of the `MAX_RETRIES` attempts fails at transport
level, `stream_model` returns (rather than raising) an assistant Message
whose content is the human-readable error string `[Error: <e>]` built from
the last attempt's exception text (UTF-8-sanitized), after exactly 3
attempts. -/
theorem c6_all_failures_error_message (attempts : Nat → AttemptOutcome)
    (p0 p1 p2 : List StreamLine) (e0 e1 e2 : PyStr)
    (h0 : attempts 0 = .failure p0 e0) (h1 : attempts 1 = .failure p1 e1)
    (h2 : attempts 2 = .failure p2 e2) :
    attemptsMade attempts = 3 ∧
    (stream_model attempts).role = pyOfString "assistant" ∧
    (stream_model attempts).content =
      some (pyOfString "[Error: " ++ pyClean e2 ++ pyOfString "]") := by
  have hgo := retryGo_all_failures attempts p0 p1 p2 e0 e1 e2 h0 h1 h2
  refine ⟨?_, ?_, ?_⟩
  · rw [attemptsMade, hgo]
  · rw [stream_model, hgo]
    exact finalizeMsg_role _
  · rw [stream_model, hgo, finalizeMsg_content]
    dsimp only
    rw [errorContent_clean e2]
    have hne : ¬ ((pyOfString "[Error: " ++ pyClean e2 ++ pyOfString "]").isEmpty = true) := by
      rw [show pyOfString "[Error: " = 91 :: pyOfString "Error: " from rfl]
      simp
    rw [if_neg hne]

/-- C6 witness: the theorem applied to a server that refuses every
connection. -/
theorem c6_witness :
    attemptsMade allFailAttempts = 3 ∧
    (stream_model allFailAttempts).role = pyOfString "assistant" ∧
    (stream_model allFailAttempts).content =
      some (pyOfString "[Error: " ++ pyClean (pyOfString "conn refused") ++ pyOfString "]") :=
  c6_all_failures_error_message allFailAttempts [] [] []
    (pyOfString "conn refused") (pyOfString "conn refused") (pyOfString "conn refused")
    rfl rfl rfl

/-- C7 counterexample: a stream with zero data chunks does decode to an
absent-content Message with no invocations, but the turn's final value is
the absence marker (`None`), not the empty text the claim requires for the
HTTP path to return a response string. -/
theorem claimC7_counterexample : ¬ claimC7Holds := by decide

/-- C7 (amended): a stream ending immediately with zero data chunks yields
a Message with absent content and no invocations; the caller completes the
turn without raising, in one round-trip, with the absence marker as the
final value — which the `/chat` handler then serializes as a JSON `null`
response value, not a string. -/
theorem c7_empty_stream_turn (tools : PyStr → Option Capability)
    (parseJson : PyStr → Option Json) (history : List Message) :
    stream_model (singleSuccess []) =
      { role := pyOfString "assistant", content := none, tool_calls := none,
        function_call := none, tool_call_id := none, name := none } ∧
    process_conversation_turn emptyTurnModel tools parseJson history =
      .ok ⟨history ++ [stream_model (singleSuccess [])], none, 1⟩ ∧
    chatResponseBody none = pyOfString "\x7b\"response\": null\x7d" := by
  refine ⟨by decide, ?_, by decide⟩
  have h := turnLoop_stop_now emptyTurnModel tools parseJson 19 history
    (some (pyOfString "")) 0 rfl
  show turnLoop emptyTurnModel tools parseJson (19 + 1) history (some (pyOfString "")) 0 = _
  rw [h]
  rfl

/-- C8: when the first decoded assistant Message has neither tool
invocations nor a legacy function invocation, the turn terminates after
exactly one model round-trip and that Message's content value becomes the
turn's final answer. -/
theorem c8_single_roundtrip (callModel : List Message → Message)
    (tools : PyStr → Option Capability) (parseJson : PyStr → Option Json)
    (history : List Message)
    (h : noInvocations (callModel history) = true) :
    process_conversation_turn callModel tools parseJson history =
      .ok ⟨history ++ [callModel history], (callModel history).content, 1⟩ := by
  show turnLoop callModel tools parseJson (19 + 1) history (some (pyOfString "")) 0 = _
  rw [turnLoop_stop_now callModel tools parseJson 19 history (some (pyOfString "")) 0 h]

/-- C8 witness: the theorem applied to a model that answers with plain
text immediately. -/
theorem c8_witness :
    process_conversation_turn cmHello toolsNone parseNone [] =
      .ok ⟨[msgHello], some (pyOfString "hello"), 1⟩ :=
  c8_single_roundtrip cmHello toolsNone parseNone [] rfl

/-- C9: for every invocation whose tool name is not registered, execution
raises nothing and produces a `tool` Message whose content is the
JSON-encoded object with key `error` and value `Unknown tool`, carrying
the invocation's id and name — on both the modern and the legacy path —
so the turn continues to the next invocation or round-trip. -/
theorem c9_unknown_tool (tools : PyStr → Option Capability) (parseJson : PyStr → Option Json)
    (tc : ToolCall) (fc : FunctionCall)
    (htc : tools tc.name = none) (hfc : tools fc.name = none) :
    execToolCall tools parseJson tc =
      .ok { role := pyOfString "tool",
            content := some (pyOfString "\x7b\"error\": \"Unknown tool\"\x7d"),
            tool_call_id := tc.id, name := some tc.name } ∧
    execFunctionCall tools parseJson fc =
      .ok { role := pyOfString "tool",
            content := some (pyOfString "\x7b\"error\": \"Unknown tool\"\x7d"),
            name := some fc.name } := by
  have hd : dumps unknownToolResult = pyOfString "\x7b\"error\": \"Unknown tool\"\x7d" := by
    decide
  constructor
  · have hstep : execToolCall tools parseJson tc =
        .ok { role := pyOfString "tool", content := some (dumps unknownToolResult),
              tool_call_id := tc.id, name := some tc.name } := by
      unfold execToolCall
      rw [htc]
      rfl
    rw [hstep, hd]
  · have hstep : execFunctionCall tools parseJson fc =
        .ok { role := pyOfString "tool", content := some (dumps unknownToolResult),
              name := some fc.name } := by
      unfold execFunctionCall
      rw [hfc]
      rfl
    rw [hstep, hd]

/-- C9 witness: the theorem applied to an empty registry, an invocation
with unparseable arguments included. -/
theorem c9_witness :
    execToolCall toolsNone parseNone w9ToolCall =
      .ok { role := pyOfString "tool",
            content := some (pyOfString "\x7b\"error\": \"Unknown tool\"\x7d"),
            tool_call_id := w9ToolCall.id, name := some w9ToolCall.name } ∧
    execFunctionCall toolsNone parseNone w9FunctionCall =
      .ok { role := pyOfString "tool",
            content := some (pyOfString "\x7b\"error\": \"Unknown tool\"\x7d"),
            name := some w9FunctionCall.name } :=
  c9_unknown_tool toolsNone parseNone w9ToolCall w9FunctionCall rfl rfl

/-- C10: a `tool_calls` delta with no index field is treated as addressing
index 0: applying it is the same as applying the delta with index 0, and
its fragments are merged into the first accumulator rather than the delta
being skipped or failing. -/
theorem c10_missing_index (l : List ToolCallAcc) (d : ToolCallDelta)
    (h : d.index = none) :
    applyToolCallDelta l d = applyToolCallDelta l { d with index := some 0 } ∧
    getAcc (applyToolCallDelta l d) 0 = mergeTC (getAcc l 0) d := by
  constructor
  · rcases d with ⟨idx, did, dfn⟩
    simp only at h
    subst h
    rfl
  · rw [getAcc_applyToolCallDelta]
    have hi : tcIndex d = 0 := by
      simp [tcIndex, h]
    simp [hi]

/-- C10 witness: the theorem applied to a concrete index-free delta on a
one-element accumulator list. -/
theorem c10_witness :
    applyToolCallDelta w10Accs w10Delta =
      applyToolCallDelta w10Accs { w10Delta with index := some 0 } ∧
    getAcc (applyToolCallDelta w10Accs w10Delta) 0 = mergeTC (getAcc w10Accs 0) w10Delta :=
  c10_missing_index w10Accs w10Delta rfl
